import Mathlib

/-
Verification development for the UML Studio single-page application
(`src/App.tsx`).  The application keeps a static catalog of diagram
records, renders the active record's source text through an external
engine, and offers copy / export / theme-toggle actions.  The
definitions below are a shallow embedding of the data model and of the
operations of `App.tsx`; the theorems settle the behavioural claims
about the selection and rendering lifecycle.
-/

namespace UMLStudio

/-- A catalog entry: `interface Diagram` in `App.tsx` (fields `id`,
`group`, `title`, `code`). -/
structure Diagram where
  id : String
  group : String
  title : String
  code : String
deriving DecidableEq

/-- Shared class for exception/risk nodes: constant `CLASSDEF` in `App.tsx`. -/
def CLASSDEF : String := "classDef risk fill:#fff3cd,stroke:#f0ad4e,color:#8a6d3b;\n"

/-- The static diagram catalog: constant `diagrams` in `App.tsx`.
Braces of the source language are written with their character codes. -/
def diagrams : List Diagram := [
  { id := "OTO0", group := "Otomato Platform", title := "System Overview (Use-Case)",
    code := "flowchart LR\n  U([User])\n  D([Developer])\n  P([Partner Protocol])\n\n  subgraph Otomato[Otomato Automation Platform]\n    UC1((Create No-Code Agent))\n    UC2((Use Otomato SDK))\n    UC3((Integrate via API))\n    UC4((Monitor On-Chain Events))\n  end\n\n  U --> UC1\n  D --> UC2\n  P --> UC3\n  UC1 --> UC4\n  UC2 --> UC4" },
  { id := "OTO1", group := "Otomato Platform", title := "No-Code Automation Workflow (Flowchart)",
    code := "flowchart TD\n  " ++ CLASSDEF ++ "  A[Start: User opens Automation Builder]\n  B\x7b\"Define Trigger<br/><i>e.g., Gas price < 10 Gwei</i>\"\x7d\n  C\x7b\"Define Action<br/><i>e.g., Swap ETH for TOKEN</i>\"\x7d\n  D[Save & Deploy Agent]\n  E((Otomato Engine Monitors Blockchain))\n  F\x7bCondition Met?\x7d\n  G[Execute Transaction via Smart Account]\n  H([End: Success])\n  I([End: Failed])\n\n  A --> B --> C --> D --> E --> F\n  F -- Yes --> G --> H\n  F -- No --> E\n  G -- Error --> I" },
  { id := "OTO2", group := "Otomato Platform", title := "Technology Ecosystem (Component View)",
    code := "flowchart TD\n  subgraph UserFacing[User-Facing Layer]\n    UI[No-Code Builder UI]\n    SDK[TypeScript SDK]\n  end\n\n  subgraph CoreEngine[Core Engine]\n    AE[Automation Engine]\n    SA[\"Smart Accounts<br/>(ERC-4337)\"]\n  end\n\n  subgraph Integrations[Integrations & Infrastructure]\n    EVM[\"EVM Chains<br/>(Base, Ethereum, etc.)\"]\n    DeFi[\"DeFi Protocols<br/>(Aave, Compound)\"]\n    Privacy[\"Privacy Layer<br/>(iExec)\"]\n  end\n\n  UI --> AE\n  SDK --> AE\n  AE --> SA\n  SA --> EVM\n  SA --> DeFi\n  AE --> Privacy" },
  { id := "OTO3", group := "Strategy & Growth", title := "Funding & Partnerships (Sequence)",
    code := "sequenceDiagram\n  autonumber\n  participant C as Coinsilium (Investor)\n  participant O as Otomato\n  participant I as iExec (Partner)\n  participant M as Mode Network\n\n  C->>O: Provide Strategic Funding (SAFT)\n  O-->>C: Grant % of future revenue & tokens\n  O->>I: Propose technical integration\n  I-->>O: Agree to provide privacy tools on Arbitrum\n  O->>M: Join Yield Accelerator Program\n  M-->>O: Provide ecosystem support & grant\n  O->>O: Develop platform using funds & tech" },
  { id := "OTO4", group := "Strategy & Growth", title := "Project Launch Roadmap (Flowchart)",
    code := "flowchart LR\n  " ++ CLASSDEF ++ "  A[Q3 2024: Private Beta] --> B[Q4 2024: Public Launch]\n  B --> C[\"Q2 2025: Token Generation Event (TGE)\"]\n  C --> D[Post-TGE: Exchange Listings & DAO Formation]\n\n  R1\x7b\x7bTokenomics Not Public\x7d\x7d:::risk\n  C -.-> R1" }
]

/-- The first catalog entry, `diagrams[0]` in `App.tsx`. -/
def firstDiagram : Diagram := diagrams.get ⟨0, by decide⟩

/-- Global replacement of the single character `c` by the string `r`,
the semantics of the JavaScript `String.prototype.replace` with a
global single-character pattern (used three times in the error path of
`MermaidRenderer` and once in the export button handler). -/
def replaceAllChar (c : Char) (r : List Char) : List Char → List Char
  | [] => []
  | x :: xs => (if x = c then r else [x]) ++ replaceAllChar c r xs

/-- The escaping applied to the source text shown in the error panel of
`MermaidRenderer`: `code.replace(/&/g, "&amp;").replace(/</g, "&lt;").replace(/>/g, "&gt;")`
(ampersands first, then angle brackets). -/
def escapeChars (l : List Char) : List Char :=
  replaceAllChar '>' ['&', 'g', 't', ';']
    (replaceAllChar '<' ['&', 'l', 't', ';']
      (replaceAllChar '&' ['&', 'a', 'm', 'p', ';'] l))

/-- String form of `escapeChars` (the `safeCode` computation). -/
def escapeHtml (s : String) : String := (escapeChars s.data).asString

/-- Per-character image of the escaping; proof-side characterisation of
`escapeChars` as a character-wise homomorphism. -/
def escChar (c : Char) : List Char :=
  if c = '&' then ['&', 'a', 'm', 'p', ';']
  else if c = '<' then ['&', 'l', 't', ';']
  else if c = '>' then ['&', 'g', 't', ';']
  else [c]

/-- Left inverse of the escaping; decodes the escaped text back to the
original source (proof-side helper for injectivity). -/
def unescape (l : List Char) : List Char :=
  match l with
  | '&' :: 'a' :: 'm' :: 'p' :: ';' :: r => '&' :: unescape r
  | '&' :: 'l' :: 't' :: ';' :: r => '<' :: unescape r
  | '&' :: 'g' :: 't' :: ';' :: r => '>' :: unescape r
  | c :: rest => c :: unescape rest
  | [] => []

/-- The error panel markup built in the `catch` handler of
`MermaidRenderer` (the template literal around `String(err)` and
`safeCode`). -/
def renderErrorPanel (err code : String) : String :=
  "<pre class=\x27text-red-500 whitespace-pre-wrap p-4 bg-red-50 dark:bg-red-900/20 rounded-lg\x27><strong>Mermaid Render Error:</strong><br/>"
    ++ err ++ "<br/><br/><strong>Code:</strong><br/>" ++ escapeHtml code ++ "</pre>"

/-- The situation of one render invocation of `MermaidRenderer` at the
moment its promise settles: the source text it was issued for, the
value of the per-invocation liveness flag `active` (set to `false` by
the effect cleanup when the inputs change or the view unmounts), and
whether `ref.current` is still attached (non-null). -/
structure RenderTask where
  code : String
  active : Bool
  mounted : Bool
deriving DecidableEq

/-- Observable state of one mounted diagram view: the displayed markup
(`ref.current.innerHTML`) and the Shell's stored artifact (the `svg`
state of `App`, written through the `onRender` callback `setSvg`). -/
structure ViewState where
  content : String
  artifact : String
deriving DecidableEq

/-- The `.then(({svg}) => ...)` handler of `MermaidRenderer.render`:
returns the updated view state and whether `onRender` was invoked. -/
def applySuccess (t : RenderTask) (svg : String) (st : ViewState) : ViewState × Bool :=
  if !t.active then (st, false)
  else
    let st1 := if t.mounted then { st with content := svg } else st
    ({ st1 with artifact := svg }, true)

/-- The `.catch((err) => ...)` handler of `MermaidRenderer.render`:
returns the updated view state and whether `onRender` was invoked.
Note that, unlike the success handler, the source contains no check of
the liveness flag here — only of `ref.current`. -/
def applyFailure (t : RenderTask) (err : String) (st : ViewState) : ViewState × Bool :=
  if t.mounted then ({ st with content := renderErrorPanel err t.code }, false)
  else (st, false)

/-- Shell state of `App`: the `selected`, `svg`, `dark` and
`copyStatus` `useState` hooks, plus the bookkeeping that determines
whether the renderer effect re-runs: `lastDeps` is the `code`
dependency of `MermaidRenderer`'s effect at its last run (`onRender`
is the stable setter `setSvg`, so only `code` can change), and
`mermaidDark` is the theme the engine was last configured with by
`initMermaid`. -/
structure AppState where
  selected : Diagram
  svg : String
  dark : Bool
  copyStatus : String
  lastDeps : Option String
  mermaidDark : Option Bool
deriving DecidableEq

/-- One commit of `MermaidRenderer`'s effect: React re-runs the effect
(issuing exactly one `window.mermaid.render` call) iff the dependency
list `[code, onRender]` changed, i.e. iff the active source string
differs from the one the effect last ran with.  Returns the new state
and the number of render calls issued. -/
def runRendererEffect (st : AppState) : AppState × Nat :=
  if st.lastDeps = some st.selected.code then (st, 0)
  else ({ st with lastDeps := some st.selected.code }, 1)

/-- The field-by-field copy `{...prev}` performed by the theme effect. -/
def spreadCopy (d : Diagram) : Diagram :=
  { id := d.id, group := d.group, title := d.title, code := d.code }

/-- Toggling the theme: `setDark(v => !v)` re-runs the `[dark]` effect,
which reconfigures the engine (`initMermaid(dark)`) and replaces
`selected` by the copy `{...prev}`; afterwards the renderer effect's
dependencies are compared.  Returns the new state and the number of
render calls issued. -/
def themeToggle (st : AppState) : AppState × Nat :=
  runRendererEffect
    { st with dark := !st.dark, mermaidDark := some (!st.dark),
              selected := spreadCopy st.selected }

/-- Selecting a catalog entry: `onSelect(d)` is `setSelected(d)`;
afterwards the renderer effect's dependencies are compared.  Returns
the new state and the number of render calls issued. -/
def selectDiagram (st : AppState) (d : Diagram) : AppState × Nat :=
  runRendererEffect { st with selected := d }

/-- The state of `App` right after the initial values of the hooks are
installed: `useState(diagrams[0])`, `useState("")`, `useState(false)`,
`useState("Copy Mermaid")`; no effect has run yet. -/
def initialAppState : AppState :=
  { selected := firstDiagram, svg := "", dark := false,
    copyStatus := "Copy Mermaid", lastDeps := none, mermaidDark := none }

/-- The state after the mount effects ran: the `[dark]` effect
configured the engine for the light theme and the renderer effect
issued the first render of the first diagram's source. -/
def mountedState : AppState :=
  (runRendererEffect { initialAppState with mermaidDark := some false }).1

/-- A file handed to the browser download boundary. -/
structure DownloadFile where
  filename : String
  content : String
  mime : String
deriving DecidableEq

/-- The `download` helper of `App.tsx`: builds a blob of MIME type
`image/svg+xml` and saves it under the name with the fixed `.svg`
extension. -/
def download (name : String) (svg : String) : DownloadFile :=
  { filename := name ++ ".svg", content := svg, mime := "image/svg+xml" }

/-- The filename stem passed by the export button:
`selected.title.replace(/ /g, "_")`. -/
def exportName (d : Diagram) : String :=
  (replaceAllChar ' ' ['_'] d.title.data).asString

/-- The export action: the button is rendered with `disabled={!svg}`
(no download is triggered while the artifact string is empty);
otherwise clicking it calls `download(selected.title.replace(/ /g,
"_"), svg)`. -/
def exportActive (st : AppState) : Option DownloadFile :=
  if st.svg = "" then none
  else some (download (exportName st.selected) st.svg)

/-- One step of the `Map`-based grouping loop in `Sidebar`: insert a
diagram into the insertion-ordered association list, appending it to
the entry of its group if that key is present and appending a new
singleton entry at the end otherwise (JavaScript `Map` iterates in
insertion order; `push` appends). -/
def mapInsert (acc : List (String × List Diagram)) (d : Diagram) : List (String × List Diagram) :=
  match acc with
  | [] => [(d.group, [d])]
  | (k, ds) :: rest =>
    if d.group = k then (k, ds ++ [d]) :: rest else (k, ds) :: mapInsert rest d

/-- The grouping computed by `Sidebar`'s `useMemo`: fold the catalog
into a `Map<string, Diagram[]>` and list its entries. -/
def groupsOf (items : List Diagram) : List (String × List Diagram) :=
  items.foldl mapInsert []

/-- Modelled from the spec: the order of first occurrence of the group
labels ("group appearance order = order of first occurrence in the
catalog"). -/
def firstOccur (l : List String) : List String :=
  match l with
  | [] => []
  | g :: gs => g :: firstOccur (gs.filter fun x => x ≠ g)
termination_by l.length
decreasing_by
  simp only [List.length_cons]
  exact Nat.lt_succ_of_le (List.length_filter_le _ _)

/-- Modelled from the spec: the Navigation Panel "partitions the
catalog into ordered groups keyed by `group` (group appearance order =
order of first occurrence in the catalog; within-group order = catalog
order)". -/
def specNavGroups (items : List Diagram) : List (String × List Diagram) :=
  (firstOccur (items.map fun d => d.group)).map
    fun g => (g, items.filter fun d => d.group = g)

/-- The copy-acknowledgment state: the `copyStatus` label together with
the pending `setTimeout` reset callbacks (absolute fire times in
milliseconds, in scheduling order; all delays are the fixed 2000 ms,
so scheduling order is firing order). -/
structure CopyUi where
  copyStatus : String
  pending : List Nat
deriving DecidableEq

/-- The idle copy state: label `"Copy Mermaid"` and no pending timer. -/
def copyIdle : CopyUi := { copyStatus := "Copy Mermaid", pending := [] }

/-- `handleCopy` in `App.tsx`, given the outcome of the clipboard write
at time `now`: on success set the label to `"Copied!"` and schedule a
reset after 2000 ms; on failure the error was already logged inside
`copy` and no state changes. -/
def handleCopy (st : CopyUi) (success : Bool) (now : Nat) : CopyUi :=
  if success then { copyStatus := "Copied!", pending := st.pending ++ [now + 2000] }
  else st

/-- Delivery of the earliest pending `setTimeout` callback:
`() => setCopyStatus("Copy Mermaid")`. -/
def fireReset (st : CopyUi) : CopyUi :=
  match st.pending with
  | [] => st
  | _ :: rest => { copyStatus := "Copy Mermaid", pending := rest }

/-- The time at which the label will next be reset (the earliest
pending timer), if any. -/
def nextFire (st : CopyUi) : Option Nat := st.pending.head?

/- ## Lemmas about the error-panel escaping -/

theorem replaceAllChar_eq_flatMap (c : Char) (r : List Char) (l : List Char) :
    replaceAllChar c r l = l.flatMap fun x => if x = c then r else [x] := by
  induction l with
  | nil => rfl
  | cons x xs ih => simp [replaceAllChar, ih]

theorem escChar_step (x : Char) :
    ((if x = '&' then ['&', 'a', 'm', 'p', ';'] else [x]).flatMap fun y =>
        (if y = '<' then ['&', 'l', 't', ';'] else [y]).flatMap fun z =>
        if z = '>' then ['&', 'g', 't', ';'] else [z]) = escChar x := by
  by_cases h1 : x = '&'
  · subst h1; rfl
  · by_cases h2 : x = '<'
    · subst h2; rfl
    · by_cases h3 : x = '>'
      · subst h3; rfl
      · simp [escChar, h1, h2, h3]

theorem escapeChars_eq_flatMap (l : List Char) : escapeChars l = l.flatMap escChar := by
  unfold escapeChars
  rw [replaceAllChar_eq_flatMap, replaceAllChar_eq_flatMap, replaceAllChar_eq_flatMap,
    List.flatMap_assoc, List.flatMap_assoc]
  congr 1
  funext x
  exact escChar_step x

theorem escChar_no_angle (x c : Char) (hc : c ∈ escChar x) : c ≠ '<' ∧ c ≠ '>' := by
  unfold escChar at hc
  split_ifs at hc with h1 h2 h3
  · rcases (by simpa using hc : c = '&' ∨ c = 'a' ∨ c = 'm' ∨ c = 'p' ∨ c = ';') with
      rfl | rfl | rfl | rfl | rfl <;> exact ⟨by decide, by decide⟩
  · rcases (by simpa using hc : c = '&' ∨ c = 'l' ∨ c = 't' ∨ c = ';') with
      rfl | rfl | rfl | rfl <;> exact ⟨by decide, by decide⟩
  · rcases (by simpa using hc : c = '&' ∨ c = 'g' ∨ c = 't' ∨ c = ';') with
      rfl | rfl | rfl | rfl <;> exact ⟨by decide, by decide⟩
  · have : c = x := by simpa using hc
    subst this
    exact ⟨h2, h3⟩

theorem escapeHtml_no_angle (s : String) (c : Char) (hc : c ∈ (escapeHtml s).data) :
    c ≠ '<' ∧ c ≠ '>' := by
  have hdata : (escapeHtml s).data = s.data.flatMap escChar := by
    show (escapeChars s.data).asString.data = _
    rw [escapeChars_eq_flatMap]
    rfl
  rw [hdata] at hc
  rcases List.mem_flatMap.mp hc with ⟨a, _, ha⟩
  exact escChar_no_angle a c ha

theorem unescape_escChar (x : Char) (l : List Char) :
    unescape (escChar x ++ l) = x :: unescape l := by
  by_cases h1 : x = '&'
  · subst h1; rfl
  · by_cases h2 : x = '<'
    · subst h2; rfl
    · by_cases h3 : x = '>'
      · subst h3; rfl
      · have hx : escChar x = [x] := by simp [escChar, h1, h2, h3]
        rw [hx, List.singleton_append, unescape.eq_def]
        split <;> simp_all

theorem unescape_flatMap_escChar (l : List Char) : unescape (l.flatMap escChar) = l := by
  induction l with
  | nil => rfl
  | cons x xs ih => rw [List.flatMap_cons, unescape_escChar, ih]

theorem escapeHtml_inj (s t : String) (h : escapeHtml s = escapeHtml t) : s = t := by
  have hs : (escapeHtml s).data = s.data.flatMap escChar := by
    show (escapeChars s.data).asString.data = _
    rw [escapeChars_eq_flatMap]; rfl
  have ht : (escapeHtml t).data = t.data.flatMap escChar := by
    show (escapeChars t.data).asString.data = _
    rw [escapeChars_eq_flatMap]; rfl
  have hd : s.data.flatMap escChar = t.data.flatMap escChar := by
    rw [← hs, ← ht, h]
  have : s.data = t.data := by
    rw [← unescape_flatMap_escChar s.data, ← unescape_flatMap_escChar t.data, hd]
  cases s
  cases t
  exact congrArg String.mk this

/- ## Lemmas about the Sidebar grouping -/

theorem foldl_mapInsert_cons (k : String) (items : List Diagram) :
    ∀ (ds : List Diagram) (acc : List (String × List Diagram)),
      List.foldl mapInsert ((k, ds) :: acc) items
        = (k, ds ++ items.filter fun d => d.group = k)
            :: List.foldl mapInsert acc (items.filter fun d => d.group ≠ k) := by
  induction items with
  | nil => intro ds acc; simp
  | cons d rest ih =>
    intro ds acc
    rw [List.foldl_cons]
    by_cases h : d.group = k
    · rw [show mapInsert ((k, ds) :: acc) d = (k, ds ++ [d]) :: acc from by
        simp [mapInsert, h], ih]
      simp [List.filter_cons, h]
    · rw [show mapInsert ((k, ds) :: acc) d = (k, ds) :: mapInsert acc d from by
        simp [mapInsert, h], ih]
      simp [List.filter_cons, h]

theorem groupsOf_cons (d : Diagram) (items : List Diagram) :
    groupsOf (d :: items)
      = (d.group, d :: items.filter fun x => x.group = d.group)
          :: groupsOf (items.filter fun x => x.group ≠ d.group) := by
  show List.foldl mapInsert [] (d :: items) = _
  rw [List.foldl_cons]
  show List.foldl mapInsert [(d.group, [d])] items = _
  rw [foldl_mapInsert_cons]
  simp [groupsOf]

theorem mem_firstOccur (x : String) (l : List String) (hx : x ∈ firstOccur l) : x ∈ l := by
  induction l using firstOccur.induct with
  | case1 => simp [firstOccur] at hx
  | case2 g gs ih =>
    rw [firstOccur] at hx
    rcases List.mem_cons.mp hx with h | h
    · exact h ▸ List.mem_cons_self _ _
    · exact List.mem_cons_of_mem _ (List.mem_of_mem_filter (ih h))

theorem groupsOf_eq_spec_aux :
    ∀ (n : Nat) (items : List Diagram), items.length ≤ n →
      groupsOf items = specNavGroups items := by
  intro n
  induction n with
  | zero =>
    intro items h
    rw [List.length_eq_zero.mp (Nat.le_zero.mp h)]
    simp [groupsOf, specNavGroups, firstOccur]
  | succ n ih =>
    intro items h
    cases items with
    | nil => simp [groupsOf, specNavGroups, firstOccur]
    | cons d rest =>
      have hlen : (rest.filter fun x => x.group ≠ d.group).length ≤ n := by
        have h1 := List.length_filter_le (fun x => x.group ≠ d.group) rest
        simp only [List.length_cons] at h
        omega
      rw [groupsOf_cons, ih _ hlen]
      show _ = (firstOccur ((d :: rest).map fun x => x.group)).map _
      rw [List.map_cons, firstOccur]
      rw [show ((rest.map fun x => x.group).filter fun x => x ≠ d.group)
            = (rest.filter fun x => x.group ≠ d.group).map fun x => x.group from by
        rw [List.filter_map]; rfl]
      rw [List.map_cons]
      congr 1
      · show _ = (d.group, (d :: rest).filter fun x => x.group = d.group)
        rw [List.filter_cons_of_pos (by simp)]
      · show ((firstOccur ((rest.filter fun x => x.group ≠ d.group).map fun x => x.group)).map
            fun g => (g, (rest.filter fun x => x.group ≠ d.group).filter fun x => x.group = g)) = _
        apply List.map_congr_left
        intro g hgmem
        have hgne : g ≠ d.group := by
          have hmem := mem_firstOccur g _ hgmem
          rcases List.mem_map.mp hmem with ⟨x, hx, hxg⟩
          have hx2 := (List.mem_filter.mp hx).2
          simp only [decide_eq_true_eq] at hx2
          exact hxg ▸ hx2
        have h1 : (d :: rest).filter (fun x => x.group = g)
            = rest.filter fun x => x.group = g := by
          rw [List.filter_cons_of_neg (by simpa using fun hh => hgne hh.symm)]
        have h2 : (rest.filter fun x => x.group ≠ d.group).filter (fun x => x.group = g)
            = rest.filter fun x => x.group = g := by
          rw [List.filter_filter]
          apply List.filter_congr
          intro x _
          by_cases hxg : x.group = g
          · simp [hxg, hgne]
          · simp [hxg]
        rw [h2, h1]

theorem groupsOf_eq_spec (items : List Diagram) : groupsOf items = specNavGroups items :=
  groupsOf_eq_spec_aux items.length items le_rfl

theorem groupsOf_flatMap_perm_aux :
    ∀ (n : Nat) (items : List Diagram), items.length ≤ n →
      List.Perm ((groupsOf items).flatMap fun p => p.2) items := by
  intro n
  induction n with
  | zero =>
    intro items h
    rw [List.length_eq_zero.mp (Nat.le_zero.mp h)]
    simp [groupsOf]
  | succ n ih =>
    intro items h
    cases items with
    | nil => simp [groupsOf]
    | cons d rest =>
      have hlen : (rest.filter fun x => x.group ≠ d.group).length ≤ n := by
        have h1 := List.length_filter_le (fun x => x.group ≠ d.group) rest
        simp only [List.length_cons] at h
        omega
      rw [groupsOf_cons, List.flatMap_cons, List.cons_append]
      refine List.Perm.cons d ((List.Perm.append_left _ (ih _ hlen)).trans ?_)
      rw [show (rest.filter fun x => x.group ≠ d.group)
            = rest.filter fun x => !(decide (x.group = d.group)) from by
        apply List.filter_congr
        intro x _
        by_cases hh : x.group = d.group <;> simp [hh]]
      exact List.filter_append_perm _ rest

theorem groupsOf_flatMap_perm (items : List Diagram) :
    List.Perm ((groupsOf items).flatMap fun p => p.2) items :=
  groupsOf_flatMap_perm_aux items.length items le_rfl

theorem groupsOf_mem_aux :
    ∀ (n : Nat) (items : List Diagram), items.length ≤ n →
      ∀ p ∈ groupsOf items, ∀ d ∈ p.2, d.group = p.1 := by
  intro n
  induction n with
  | zero =>
    intro items h
    rw [List.length_eq_zero.mp (Nat.le_zero.mp h)]
    simp [groupsOf]
  | succ n ih =>
    intro items h p hp x hx
    cases items with
    | nil => simp [groupsOf] at hp
    | cons d rest =>
      rw [groupsOf_cons] at hp
      rcases List.mem_cons.mp hp with rfl | hp2
      · rcases List.mem_cons.mp hx with rfl | hx2
        · rfl
        · have hf := (List.mem_filter.mp hx2).2
          simpa using hf
      · have hlen : (rest.filter fun y => y.group ≠ d.group).length ≤ n := by
          have h1 := List.length_filter_le (fun y => y.group ≠ d.group) rest
          simp only [List.length_cons] at h
          omega
        exact ih _ hlen p hp2 x hx

theorem groupsOf_mem (items : List Diagram) :
    ∀ p ∈ groupsOf items, ∀ d ∈ p.2, d.group = p.1 :=
  groupsOf_mem_aux items.length items le_rfl

/- ## Lemmas about the export filename -/

theorem replaceAllChar_space (l : List Char) :
    replaceAllChar ' ' ['_'] l = l.map fun c => if c = ' ' then '_' else c := by
  induction l with
  | nil => rfl
  | cons x xs ih => by_cases hx : x = ' ' <;> simp [replaceAllChar, hx, ih]

theorem exportName_no_space (d : Diagram) (c : Char) (hc : c ∈ (exportName d).data) :
    c ≠ ' ' := by
  have hdata : (exportName d).data = d.title.data.map fun x => if x = ' ' then '_' else x := by
    show (replaceAllChar ' ' ['_'] d.title.data).asString.data = _
    rw [replaceAllChar_space]
    rfl
  rw [hdata] at hc
  rcases List.mem_map.mp hc with ⟨a, _, ha⟩
  rw [← ha]
  split_ifs with hsp
  · decide
  · exact hsp

/- ## Claim theorems -/

/-- Claim C1 (evaluation at the failing input).  A stale completion is
one whose liveness flag was cleared by the effect cleanup (inputs
changed or view unmounted) before the promise settled.  The success
handler honours the flag and discards the stale result, but the
failure handler does not: with `active = false` and the view still
mounted, a stale rejection still overwrites the displayed content with
the old source's error panel — contradicting the claim that a stale
result, success or failure, never mutates the view.  The `onRender`
callback is nonetheless never invoked on failure, so `lastArtifact`
stays intact. -/
theorem claim1_stale_failure_mutates_view :
    (applySuccess { code := "oldSrc", active := false, mounted := true } "staleSvg"
        { content := "fresh", artifact := "freshSvg" }
      = ({ content := "fresh", artifact := "freshSvg" }, false))
    ∧ ((applyFailure { code := "oldSrc", active := false, mounted := true } "SyntaxError"
        { content := "fresh", artifact := "freshSvg" }).1.content ≠ "fresh")
    ∧ ((applyFailure { code := "oldSrc", active := false, mounted := true } "SyntaxError"
        { content := "fresh", artifact := "freshSvg" }).1.artifact = "freshSvg")
    ∧ ((applyFailure { code := "oldSrc", active := false, mounted := true } "SyntaxError"
        { content := "fresh", artifact := "freshSvg" }).2 = false) := by
  refine ⟨rfl, by decide, rfl, rfl⟩

/-- Claim C2: when the engine rejects a source text, the mounted view's
displayed content becomes the error panel — literally a fixed prefix,
the engine's error message, a fixed separator, the original source
with `&`, `<`, `>` escaped, and a closing tag — while the `onRender`
callback is not invoked and the stored artifact is unchanged. -/
theorem claim2_failure_panel (t : RenderTask) (e : String) (st : ViewState)
    (hm : t.mounted = true) :
    (applyFailure t e st).1.content
      = "<pre class=\x27text-red-500 whitespace-pre-wrap p-4 bg-red-50 dark:bg-red-900/20 rounded-lg\x27><strong>Mermaid Render Error:</strong><br/>"
          ++ e ++ "<br/><br/><strong>Code:</strong><br/>" ++ escapeHtml t.code ++ "</pre>"
    ∧ (applyFailure t e st).1.artifact = st.artifact
    ∧ (applyFailure t e st).2 = false := by
  refine ⟨?_, ?_, ?_⟩ <;> simp [applyFailure, hm, renderErrorPanel]

/-- Witness for C2 at a concrete failing render. -/
theorem claim2_witness :
    (applyFailure { code := "graph <X>", active := true, mounted := true } "Parse error"
        { content := "old", artifact := "oldSvg" }).1.artifact = "oldSvg"
    ∧ (applyFailure { code := "graph <X>", active := true, mounted := true } "Parse error"
        { content := "old", artifact := "oldSvg" }).2 = false :=
  ⟨(claim2_failure_panel { code := "graph <X>", active := true, mounted := true }
      "Parse error" { content := "old", artifact := "oldSvg" } rfl).2.1,
   (claim2_failure_panel { code := "graph <X>", active := true, mounted := true }
      "Parse error" { content := "old", artifact := "oldSvg" } rfl).2.2⟩

set_option maxRecDepth 8192 in
/-- Claim C3 (evaluation at the failing input).  From the mounted
initial state, toggling the theme does reconfigure the engine with the
new theme, but issues zero fresh render calls — not exactly one as
claimed — because the forced update replaces `selected` by a copy with
the identical `code` string, so the renderer effect's dependency list
is unchanged. -/
theorem claim3_theme_toggle_issues_no_render :
    (themeToggle mountedState).2 = 0
    ∧ (themeToggle mountedState).1.mermaidDark = some true
    ∧ (themeToggle mountedState).2 ≠ 1 := by
  refine ⟨by decide, by decide, by decide⟩

set_option maxRecDepth 8192 in
/-- Counterexample to claim C4 as stated: selecting the already-active
diagram does not trigger exactly one new render cycle — it triggers
none, since the renderer effect's `code` dependency is unchanged. -/
theorem claim4_counterexample :
    (selectDiagram mountedState firstDiagram).2 ≠ 1 := by decide

/-- Claim C4 (amended): selecting the already-active diagram leaves the
active selection unchanged and issues no new render call — it is a
no-op at the rendering layer as well. -/
theorem claim4_select_active_no_render (st : AppState) (d : Diagram)
    (hdeps : st.lastDeps = some st.selected.code) (hcode : d.code = st.selected.code) :
    (selectDiagram st d).1.selected = d ∧ (selectDiagram st d).2 = 0 := by
  constructor <;> simp [selectDiagram, runRendererEffect, hdeps, hcode]

set_option maxRecDepth 8192 in
/-- Witness for the amended C4: re-selecting the first diagram from the
mounted initial state. -/
theorem claim4_witness :
    (selectDiagram mountedState firstDiagram).1.selected = firstDiagram
    ∧ (selectDiagram mountedState firstDiagram).2 = 0 :=
  claim4_select_active_no_render mountedState firstDiagram rfl rfl

/-- Claim C5: while the stored artifact is the empty string the export
action yields no download; the initial state has the catalog's first
entry active, an empty artifact, and hence a disabled export; a
non-empty artifact makes export possible. -/
theorem claim5_export_gating :
    (∀ st : AppState, st.svg = "" → exportActive st = none)
    ∧ mountedState.selected = firstDiagram
    ∧ mountedState.svg = ""
    ∧ exportActive mountedState = none
    ∧ ∀ st : AppState, st.svg ≠ "" → (exportActive st).isSome = true := by
  have hmt : mountedState.svg = "" := rfl
  exact ⟨fun st h => by simp [exportActive, h], rfl, hmt,
    by simp [exportActive, hmt], fun st h => by simp [exportActive, h]⟩

/-- Witness for C5 at the mounted initial state. -/
theorem claim5_witness : exportActive mountedState = none :=
  claim5_export_gating.1 mountedState rfl

/-- Claim C6: with a non-empty stored artifact, export produces a file
named from the active diagram's title with every space replaced by an
underscore plus the fixed `.svg` extension, whose content is the
stored artifact and whose MIME type is `image/svg+xml`; the filename
stem contains no space. -/
theorem claim6_export_file (st : AppState) (h : st.svg ≠ "") :
    exportActive st = some (download (exportName st.selected) st.svg)
    ∧ (download (exportName st.selected) st.svg).filename
        = (st.selected.title.data.map fun c => if c = ' ' then '_' else c).asString ++ ".svg"
    ∧ (download (exportName st.selected) st.svg).content = st.svg
    ∧ (download (exportName st.selected) st.svg).mime = "image/svg+xml"
    ∧ ∀ c ∈ (exportName st.selected).data, c ≠ ' ' := by
  refine ⟨by simp [exportActive, h], ?_, rfl, rfl, fun c hc => exportName_no_space _ c hc⟩
  show exportName st.selected ++ ".svg" = _
  unfold exportName
  rw [replaceAllChar_space]

/-- Witness for C6: exporting after a successful render. -/
theorem claim6_witness :
    exportActive { mountedState with svg := "<svg/>" }
      = some (download (exportName mountedState.selected) "<svg/>") :=
  (claim6_export_file { mountedState with svg := "<svg/>" } (by decide)).1

/-- Claim C7: the Sidebar grouping equals the spec-side description —
groups keyed by group label in order of first occurrence, members in
catalog order — and on a catalog `[A(G1), B(G1), C(G2)]` it yields
exactly `G1 -> [A, B]` then `G2 -> [C]`. -/
theorem claim7_sidebar_grouping :
    (∀ items : List Diagram, groupsOf items = specNavGroups items)
    ∧ ∀ a b c : Diagram, a.group = "G1" → b.group = "G1" → c.group = "G2" →
        groupsOf [a, b, c] = [("G1", [a, b]), ("G2", [c])] := by
  refine ⟨groupsOf_eq_spec, fun a b c ha hb hc => ?_⟩
  simp [groupsOf, mapInsert, ha, hb, hc]

/-- Witness for C7 on a concrete three-entry catalog. -/
theorem claim7_witness :
    groupsOf [(⟨"1", "G1", "tA", "cA"⟩ : Diagram), ⟨"2", "G1", "tB", "cB"⟩,
        ⟨"3", "G2", "tC", "cC"⟩]
      = [("G1", [⟨"1", "G1", "tA", "cA"⟩, ⟨"2", "G1", "tB", "cB"⟩]),
         ("G2", [⟨"3", "G2", "tC", "cC"⟩])] :=
  claim7_sidebar_grouping.2 ⟨"1", "G1", "tA", "cA"⟩ ⟨"2", "G1", "tB", "cB"⟩
    ⟨"3", "G2", "tC", "cC"⟩ rfl rfl rfl

/-- Counterexample to claim C8 as stated: after a successful copy at
time 0 and a second rapid successful copy at time 1000, the first
timer is not cancelled — the earliest pending reset fires at 2000,
strictly less than 2 seconds after the second copy, and sets the label
back to the default.  The 2-second timer is therefore not restarted by
the second copy. -/
theorem claim8_counterexample :
    (handleCopy (handleCopy copyIdle true 0) true 1000).pending = [2000, 3000]
    ∧ nextFire (handleCopy (handleCopy copyIdle true 0) true 1000) = some 2000
    ∧ (fireReset (handleCopy (handleCopy copyIdle true 0) true 1000)).copyStatus
        = "Copy Mermaid"
    ∧ 2000 < 1000 + 2000 := by
  refine ⟨rfl, rfl, rfl, by decide⟩

/-- Claim C8 (amended): a successful copy sets the label to `"Copied!"`
and schedules a reset to the default exactly 2000 ms later; from the
idle state a single successful copy reverts to the idle state when its
only timer fires; a failed copy changes nothing; but a second rapid
successful copy does not cancel the earlier timer — both timers stay
pending, so the label reverts when the first one fires, 2 seconds
after the first copy (possibly less than 2 seconds after the second). -/
theorem claim8_copy_acknowledgment :
    (∀ (st : CopyUi) (now : Nat), handleCopy st false now = st)
    ∧ (∀ (st : CopyUi) (now : Nat), (handleCopy st true now).copyStatus = "Copied!")
    ∧ (∀ (st : CopyUi) (now : Nat),
        (handleCopy st true now).pending = st.pending ++ [now + 2000])
    ∧ (∀ now : Nat, nextFire (handleCopy copyIdle true now) = some (now + 2000))
    ∧ (∀ now : Nat, fireReset (handleCopy copyIdle true now) = copyIdle)
    ∧ ∀ n1 n2 : Nat, (handleCopy (handleCopy copyIdle true n1) true n2).pending
        = [n1 + 2000, n2 + 2000] :=
  ⟨fun _ _ => rfl, fun _ _ => rfl, fun _ _ => rfl, fun _ => rfl, fun _ => rfl,
   fun _ _ => rfl⟩

/-- Claim C9: the Sidebar grouping is a partition — the concatenation
of the groups' member lists is a permutation of the input (no
additions, losses or duplicates beyond those of the input itself), and
every member sits in the group keyed by its own group label. -/
theorem claim9_grouping_partition :
    ∀ items : List Diagram,
      List.Perm ((groupsOf items).flatMap fun p => p.2) items
      ∧ ∀ p ∈ groupsOf items, ∀ d ∈ p.2, d.group = p.1 :=
  fun items => ⟨groupsOf_flatMap_perm items, groupsOf_mem items⟩

/-- Witness for C9 on a concrete one-entry catalog. -/
theorem claim9_witness :
    List.Perm ((groupsOf [(⟨"1", "G", "T", "C"⟩ : Diagram)]).flatMap fun p => p.2)
        [(⟨"1", "G", "T", "C"⟩ : Diagram)]
    ∧ (⟨"1", "G", "T", "C"⟩ : Diagram).group = "G" :=
  ⟨(claim9_grouping_partition [(⟨"1", "G", "T", "C"⟩ : Diagram)]).1,
   (claim9_grouping_partition [(⟨"1", "G", "T", "C"⟩ : Diagram)]).2
     ("G", [⟨"1", "G", "T", "C"⟩]) (by decide) ⟨"1", "G", "T", "C"⟩ (by decide)⟩

/-- Claim C10: because `&` is escaped before `<` and `>`, the escaped
output never contains a raw `<` or `>`, and the escaping is injective
— distinct source strings always produce distinct escaped outputs, so
the original source is recoverable from the panel text. -/
theorem claim10_escaping :
    (∀ s : String, ∀ c ∈ (escapeHtml s).data, c ≠ '<' ∧ c ≠ '>')
    ∧ ∀ s t : String, escapeHtml s = escapeHtml t → s = t :=
  ⟨fun s c hc => escapeHtml_no_angle s c hc, fun s t h => escapeHtml_inj s t h⟩

/-- Witness for C10 at concrete inputs. -/
theorem claim10_witness : ('&' ≠ '<' ∧ '&' ≠ '>') ∧ ("flowchart" = "flowchart") :=
  ⟨claim10_escaping.1 "<" '&' (by decide), claim10_escaping.2 "flowchart" "flowchart" rfl⟩

end UMLStudio
